import Mathlib

/-!
A shallow embedding of the core of the Popolzen/shortener service:
the relational storage backend (package database, file with
URLRepository over shortened_urls), the shortener service layer
(package shortener, URLService), and the asynchronous deletion
pipeline (bounded queue, batch workers, shutdown sequencing).

The relational table shortened_urls is modelled as a list of rows in
insertion order.  Per the migration script, both long_url and
short_url carry UNIQUE constraints, so an INSERT raises a
unique-violation exactly when the new row collides with an existing
row on either column.  SQL row errors other than the modelled
outcomes (connection failures etc.) are not modelled: the embedding
is the pure functional content of each query.
-/

namespace Shortener

/-- model.DeleteTask: the envelope flowing through the deletion queue. -/
structure DeleteTask where
  UserID : String
  ShortURL : String
deriving DecidableEq

/-- model.URLPair: a pair of short and original URL returned by listings. -/
structure URLPair where
  ShortURL : String
  OriginalURL : String
deriving DecidableEq

/-- The error outcomes surfaced by the relational repository:
notFound models the "URL not found" error (sql.ErrNoRows),
urlDeleted models model.ErrURLDeleted (the Gone outcome),
conflict models database.ErrURLConflictError carrying the existing
short URL, and storeError models any generic wrapped backend error. -/
inductive RepoError where
  | notFound
  | urlDeleted
  | conflict (existingShortURL : String)
  | storeError
deriving DecidableEq

/-- One row of the shortened_urls table.  created_at is a Nat
timestamp; only its order matters (ORDER BY created_at DESC). -/
structure Row where
  short_url : String
  long_url : String
  user_id : String
  created_at : Nat
  is_deleted : Bool
deriving DecidableEq

/-- The relational store state: the rows of shortened_urls in
insertion order. -/
abbrev DB := List Row

/-- Descending creation-time order used by ORDER BY created_at DESC. -/
def createdDesc (a b : Row) : Prop := b.created_at ≤ a.created_at

instance : DecidableRel createdDesc := fun a b => Nat.decLe b.created_at a.created_at

instance : IsTotal Row createdDesc := ⟨fun a b => Nat.le_total b.created_at a.created_at⟩

instance : IsTrans Row createdDesc := ⟨fun _ _ _ h1 h2 => Nat.le_trans h2 h1⟩

namespace URLRepository

/-- URLRepository.Get (part_023 lines 32-55): SELECT long_url,
COALESCE(is_deleted, false) FROM shortened_urls WHERE short_url = $1.
No row yields the notFound error; a tombstoned row yields
model.ErrURLDeleted; otherwise the long URL is returned. -/
def Get (db : DB) (shortURL : String) : Except RepoError String :=
  match db.find? (fun r => r.short_url == shortURL) with
  | none => Except.error RepoError.notFound
  | some r =>
    if r.is_deleted then Except.error RepoError.urlDeleted
    else Except.ok r.long_url

/-- URLRepository.getByLongURL (part_023 lines 58-69): SELECT
short_url FROM shortened_urls WHERE long_url = $1; no row yields the
notFound error. -/
def getByLongURL (db : DB) (longURL : String) : Except RepoError String :=
  match db.find? (fun r => r.long_url == longURL) with
  | none => Except.error RepoError.notFound
  | some r => Except.ok r.short_url

/-- URLRepository.Store (part_023 lines 72-95): INSERT INTO
shortened_urls (short_url, long_url, created_at, user_id).  The
insert raises a pg unique-violation when the new row collides with an
existing row on either UNIQUE column (long_url or short_url); in that
case the code looks the long URL up and returns
ErrURLConflictError with the existing short URL when the lookup
succeeds, and a generic wrapped error when it does not.  A successful
insert appends the new row with is_deleted false. -/
def Store (db : DB) (shortURL longURL id : String) (now : Nat) : Except RepoError DB :=
  if db.any (fun r => r.short_url == shortURL || r.long_url == longURL) then
    match getByLongURL db longURL with
    | Except.ok existingShortURL => Except.error (RepoError.conflict existingShortURL)
    | Except.error _ => Except.error RepoError.storeError
  else
    Except.ok (db ++ [{ short_url := shortURL, long_url := longURL,
                        user_id := id, created_at := now, is_deleted := false }])

/-- URLRepository.GetUserURLs (part_023 lines 98-124): SELECT
short_url, long_url FROM shortened_urls WHERE user_id = $1 ORDER BY
created_at DESC.  The WHERE clause is the filter and ORDER BY is a
sort by descending created_at; each row is scanned into a URLPair. -/
def GetUserURLs (db : DB) (userID : String) : List URLPair :=
  (List.insertionSort createdDesc (db.filter (fun r => r.user_id == userID))).map
    (fun r => { ShortURL := r.short_url, OriginalURL := r.long_url })

/-- The per-row effect of the bulk UPDATE of batchDeleteURLs: a row is
tombstoned exactly when its user_id matches, its short_url is in the
ANY list, and it is not already tombstoned (is_deleted = false). -/
def tombstoneRow (userID : String) (shortURLs : List String) (r : Row) : Row :=
  if r.user_id == userID && shortURLs.contains r.short_url && !r.is_deleted then
    { r with is_deleted := true }
  else r

/-- URLRepository.batchDeleteURLs (part_023 lines 197-210): UPDATE
shortened_urls SET is_deleted = true WHERE user_id = $1 AND short_url
= ANY($2) AND is_deleted = false, guarded by an early return on an
empty identifier list.  The model always succeeds (the Go error is
the transport-level Exec error, not modelled). -/
def batchDeleteURLs (db : DB) (userID : String) (shortURLs : List String) : DB :=
  if shortURLs.isEmpty then db
  else db.map (tombstoneRow userID shortURLs)

/-- Capacity of the deletion queue: make(chan model.DeleteTask, 1000). -/
def deleteQueueCapacity : Nat := 1000

/-- One non-blocking send on the deletion channel: the select with a
default branch appends the task when the channel buffer is below
capacity and otherwise drops it (logging a warning), leaving the
queue unchanged. -/
def enqueue (q : List DeleteTask) (t : DeleteTask) : List DeleteTask :=
  if q.length < deleteQueueCapacity then q ++ [t] else q

/-- URLRepository.DeleteURLs (part_023 lines 213-221): for each short
URL, one non-blocking send of DeleteTask{UserID, ShortURL}. -/
def DeleteURLs (q : List DeleteTask) (userID : String) (urlIDs : List String) : List DeleteTask :=
  urlIDs.foldl (fun acc su => enqueue acc { UserID := userID, ShortURL := su }) q

/-- Worker batch size: const batchSize = 100. -/
def batchSize : Nat := 100

/-- An observable event of one worker's select loop: a task received
from the deletion channel, or an expiry of the 2 second batch timer.
A run of the worker is its reaction to a finite event trace; the end
of the trace is the channel being closed and empty, at which point
the receive yields ok = false. -/
inductive WorkerEvent where
  | task (t : DeleteTask)
  | timer
deriving DecidableEq

/-- The outcome of one worker run: the batches handed to processBatch
(each one bulk-update attempt per owner group), in order, and the
local buffer still held when the worker returned. -/
structure WorkerRun where
  flushed : List (List DeleteTask)
  leftover : List DeleteTask
deriving DecidableEq

/-- URLRepository.deleteWorker (part_023 lines 148-177), as a function
of the local buffer and the event trace.  Receiving a task appends it
to the buffer and flushes via processBatch when the buffer reaches
batchSize; a timer expiry flushes a non-empty buffer; when the
channel is closed and drained (ok = false, the end of the trace) the
worker returns at once - the code path is the bare return statement,
which performs no flush, so the buffer is left over. -/
def deleteWorker (buf : List DeleteTask) : List WorkerEvent → WorkerRun
  | [] => { flushed := [], leftover := buf }
  | WorkerEvent.task t :: rest =>
    let buf2 := buf ++ [t]
    if batchSize ≤ buf2.length then
      let r := deleteWorker [] rest
      { flushed := buf2 :: r.flushed, leftover := r.leftover }
    else
      deleteWorker buf2 rest
  | WorkerEvent.timer :: rest =>
    if buf.isEmpty then
      deleteWorker buf rest
    else
      let r := deleteWorker [] rest
      { flushed := buf :: r.flushed, leftover := r.leftover }

/-- The tasks carried by an event trace: exactly the tasks the worker
received from the queue (the accepted, not dropped, tasks routed to
this worker). -/
def eventsTasks : List WorkerEvent → List DeleteTask
  | [] => []
  | WorkerEvent.task t :: rest => t :: eventsTasks rest
  | WorkerEvent.timer :: rest => eventsTasks rest

/-- The steps of the shutdown path, in program order. -/
inductive LifecycleStep where
  | closeQueue
  | waitWorkers
  | closeDB
deriving DecidableEq

/-- URLRepository.Shutdown (part_023): close(r.DeleteChannel) followed
by r.WG.Wait(). -/
def Shutdown : List LifecycleStep := [LifecycleStep.closeQueue, LifecycleStep.waitWorkers]

/-- URLRepository.Close (part_023 lines 223-231): r.Shutdown() and
then r.DB.Close(). -/
def Close : List LifecycleStep := Shutdown ++ [LifecycleStep.closeDB]

end URLRepository

/-- The repository.URLRepository interface (interfaces.go) as consumed
by the service, in state-passing form: get probes a short URL, store
inserts a mapping and returns the successor state. -/
structure RepoOps (σ : Type) where
  get : σ → String → Except RepoError String
  store : σ → String → String → String → Except RepoError σ

/-- The relational repository packaged as RepoOps, inserting rows at
the given timestamp. -/
def dbOps (now : Nat) : RepoOps DB where
  get := fun db su => URLRepository.Get db su
  store := fun db su lu uid => URLRepository.Store db su lu uid now

namespace URLService

/-- The 62-symbol alphabet of shortener.go. -/
def charsetChars : List Char :=
  "abcdefghijklmnopqrstuvwxyzABCDEFGHIJKLMNOPQRSTUVWXYZ0123456789".data

/-- shortener.shortURL: builds a string of the given length whose
i-th symbol is charset indexed by the i-th random draw below 62. -/
def shortURL (rnd : Nat → Fin 62) (length : Nat) : String :=
  String.mk ((List.range length).map (fun i => charsetChars.getD (rnd i).val 'a'))

/-- URLService.isUniq (shortener.go lines 50-53): probe the store and
report the candidate free exactly when Get returned any error. -/
def isUniq (ops : RepoOps σ) (s : σ) (shortURL : String) : Bool :=
  match ops.get s shortURL with
  | Except.error _ => true
  | Except.ok _ => false

/-- The outcome of URLService.Shorten: a stored short URL together
with the successor store state, a store failure, or exhaustion of the
attempt budget. -/
inductive ShortenResult (σ : Type) where
  | success (shortURL : String) (s : σ)
  | failure (e : RepoError)
  | exhausted
deriving DecidableEq

/-- The loop body of URLService.Shorten over the list of generated
candidates.  The second component instruments the run with the list
of candidates on which Store was actually invoked, so that what the
loop persisted is part of the outcome. -/
def shortenList (ops : RepoOps σ) (s : σ) (longURL id : String) :
    List String → ShortenResult σ × List String
  | [] => (ShortenResult.exhausted, [])
  | su :: rest =>
    if isUniq ops s su then
      match ops.store s su longURL id with
      | Except.error e => (ShortenResult.failure e, [su])
      | Except.ok s2 => (ShortenResult.success su s2, [su])
    else shortenList ops s longURL id rest

/-- The 1000 candidates of one Shorten call: for attempt k, the
length-6 string drawn from the attempt's random stream rnd k.
const length = 6, const maxAttempts = 1000. -/
def generateCandidates (rnd : Nat → Nat → Fin 62) : List String :=
  (List.range 1000).map (fun k => shortURL (rnd k) 6)

/-- URLService.Shorten (shortener.go lines 76-92): up to 1000
attempts; each attempt generates a candidate, pre-checks it with
isUniq, and stores on the first free one; 1000 taken candidates in a
row yield the exhaustion outcome. -/
def Shorten (ops : RepoOps σ) (s : σ) (longURL id : String) (rnd : Nat → Nat → Fin 62) :
    ShortenResult σ × List String :=
  shortenList ops s longURL id (generateCandidates rnd)

/-- URLService.GetLongURL (shortener.go lines 141-144): a thin
pass-through of the repository Get. -/
def GetLongURL (ops : RepoOps σ) (s : σ) (shortURL : String) : Except RepoError String :=
  ops.get s shortURL

/-- URLService.GetUserURLs: a pass-through of the repository listing. -/
def GetUserURLs (db : DB) (userID : String) : List URLPair :=
  URLRepository.GetUserURLs db userID

/-- URLService.GetFormattedUserURLs (shortener.go lines 113-123):
rewrites each listed pair's ShortURL to baseURL ++ "/" ++ ShortURL. -/
def GetFormattedUserURLs (db : DB) (userID baseURL : String) : List URLPair :=
  (GetUserURLs db userID).map (fun p => { p with ShortURL := baseURL ++ "/" ++ p.ShortURL })

/-- URLService.DeleteURLsAsync: a pass-through to the repository
enqueue. -/
def DeleteURLsAsync (q : List DeleteTask) (userID : String) (shortURLs : List String) :
    List DeleteTask :=
  URLRepository.DeleteURLs q userID shortURLs

end URLService

end Shortener

namespace Shortener

/-- One non-blocking enqueue never grows the queue past its capacity. -/
theorem URLRepository.enqueue_length_le (q : List DeleteTask) (t : DeleteTask)
    (h : q.length ≤ URLRepository.deleteQueueCapacity) :
    (URLRepository.enqueue q t).length ≤ URLRepository.deleteQueueCapacity := by
  unfold URLRepository.enqueue
  by_cases hlt : q.length < URLRepository.deleteQueueCapacity
  · simp only [if_pos hlt, List.length_append, List.length_cons, List.length_nil]
    omega
  · simpa [hlt] using h

/-- Claim C7: DeleteURLs is non-blocking and bounded.  Each identifier
becomes one task; a task is appended exactly when the queue is below
its capacity of 1000 and is dropped otherwise, leaving the queue
unchanged; the enqueue is a total function (it never blocks, errors or
crashes), and a queue within capacity stays within capacity, so its
length never exceeds 1000. -/
theorem deleteURLs_nonblocking_bounded :
    (∀ (q : List DeleteTask) (t : DeleteTask),
        (q.length < URLRepository.deleteQueueCapacity →
          URLRepository.enqueue q t = q ++ [t]) ∧
        (¬ q.length < URLRepository.deleteQueueCapacity →
          URLRepository.enqueue q t = q)) ∧
    (∀ (q : List DeleteTask) (userID : String) (urlIDs : List String),
        q.length ≤ URLRepository.deleteQueueCapacity →
        (URLRepository.DeleteURLs q userID urlIDs).length ≤
          URLRepository.deleteQueueCapacity) := by
  constructor
  · intro q t
    constructor
    · intro hlt
      simp [URLRepository.enqueue, hlt]
    · intro hge
      simp [URLRepository.enqueue, hge]
  · intro q userID urlIDs
    induction urlIDs generalizing q with
    | nil => intro h; simpa [URLRepository.DeleteURLs] using h
    | cons su rest ih =>
      intro h
      have hstep := URLRepository.enqueue_length_le q
        { UserID := userID, ShortURL := su } h
      simpa [URLRepository.DeleteURLs] using
        ih (URLRepository.enqueue q { UserID := userID, ShortURL := su }) hstep

/-- A full queue: 1000 pending tasks. -/
def fullQueue : List DeleteTask := List.replicate 1000 { UserID := "u-1", ShortURL := "abc123" }

/-- Witness for C7 at a concrete full queue: enqueuing one more task
keeps the queue at its capacity. -/
theorem deleteURLs_nonblocking_bounded_witness :
    (URLRepository.DeleteURLs fullQueue "u-1" ["zzz999"]).length ≤
      URLRepository.deleteQueueCapacity :=
  deleteURLs_nonblocking_bounded.2 fullQueue "u-1" ["zzz999"]
    (by rw [fullQueue, List.length_replicate, URLRepository.deleteQueueCapacity])

end Shortener

namespace Shortener

/-- The bulk tombstone update never changes the number of rows. -/
theorem URLRepository.batchDeleteURLs_length (db : DB) (u : String) (ids : List String) :
    (URLRepository.batchDeleteURLs db u ids).length = db.length := by
  unfold URLRepository.batchDeleteURLs
  split <;> simp

/-- The per-row tombstone effect is pointwise idempotent. -/
theorem URLRepository.tombstoneRow_idem (u : String) (ids : List String) (r : Row) :
    URLRepository.tombstoneRow u ids (URLRepository.tombstoneRow u ids r) =
      URLRepository.tombstoneRow u ids r := by
  unfold URLRepository.tombstoneRow
  by_cases hc : (r.user_id == u && ids.contains r.short_url && !r.is_deleted) = true
  · rw [if_pos hc, if_neg]
    simp
  · rw [if_neg hc, if_neg hc]

/-- The per-row tombstone effect never clears an is_deleted flag. -/
theorem URLRepository.tombstoneRow_mono (u : String) (ids : List String) (r : Row)
    (h : r.is_deleted = true) :
    (URLRepository.tombstoneRow u ids r).is_deleted = true := by
  unfold URLRepository.tombstoneRow
  split
  · rfl
  · exact h

/-- Claim C8: tombstoning is idempotent and monotone.  Applying the
bulk tombstone write for one owner and identifier list twice equals
applying it once; a tombstoned row stays tombstoned under any bulk
tombstone write; and a successful Store only appends a fresh row with
is_deleted false, leaving every existing row (hence every existing
flag) untouched. -/
theorem batchDelete_idempotent_monotone :
    (∀ (db : DB) (u : String) (ids : List String),
        URLRepository.batchDeleteURLs (URLRepository.batchDeleteURLs db u ids) u ids =
          URLRepository.batchDeleteURLs db u ids) ∧
    (∀ (db : DB) (u : String) (ids : List String) (i : Nat) (h : i < db.length),
        (db.get ⟨i, h⟩).is_deleted = true →
        ∃ h2 : i < (URLRepository.batchDeleteURLs db u ids).length,
          ((URLRepository.batchDeleteURLs db u ids).get ⟨i, h2⟩).is_deleted = true) ∧
    (∀ (db : DB) (su lu uid : String) (t : Nat) (db2 : DB),
        URLRepository.Store db su lu uid t = Except.ok db2 →
        ∃ nr : Row, nr.is_deleted = false ∧ db2 = db ++ [nr]) := by
  refine ⟨?_, ?_, ?_⟩
  · intro db u ids
    unfold URLRepository.batchDeleteURLs
    cases hids : ids.isEmpty
    · simp only [Bool.false_eq_true, if_false, List.map_map]
      have hf : URLRepository.tombstoneRow u ids ∘ URLRepository.tombstoneRow u ids =
          URLRepository.tombstoneRow u ids :=
        funext fun r => URLRepository.tombstoneRow_idem u ids r
      rw [hf]
    · simp
  · intro db u ids i h hdel
    simp only [List.get_eq_getElem] at hdel
    unfold URLRepository.batchDeleteURLs
    cases hids : ids.isEmpty
    · refine ⟨by simpa using h, ?_⟩
      simp only [Bool.false_eq_true, if_false, List.get_eq_getElem, List.getElem_map]
      exact URLRepository.tombstoneRow_mono u ids _ hdel
    · exact ⟨by simpa using h, by simpa using hdel⟩
  · intro db su lu uid t db2 hok
    unfold URLRepository.Store at hok
    by_cases hany : (db.any fun r => r.short_url == su || r.long_url == lu) = true
    · rw [if_pos hany] at hok
      cases hget : URLRepository.getByLongURL db lu <;> rw [hget] at hok <;> cases hok
    · rw [if_neg hany] at hok
      refine ⟨_, rfl, (Except.ok.injEq _ _).mp hok |>.symm⟩

/-- A concrete one-row store owned by u-1, already tombstoned. -/
def tombstonedDB : DB :=
  [{ short_url := "abc123", long_url := "https://a.com", user_id := "u-1",
     created_at := 5, is_deleted := true }]

/-- Witness for C8 at a concrete store: the double bulk delete equals
the single one, the tombstoned row stays tombstoned, and a successful
Store on an empty store appends one live row. -/
theorem batchDelete_idempotent_monotone_witness :
    (URLRepository.batchDeleteURLs (URLRepository.batchDeleteURLs tombstonedDB "u-1" ["abc123"])
        "u-1" ["abc123"] =
      URLRepository.batchDeleteURLs tombstonedDB "u-1" ["abc123"]) ∧
    (∃ h2 : 0 < (URLRepository.batchDeleteURLs tombstonedDB "u-1" ["abc123"]).length,
        ((URLRepository.batchDeleteURLs tombstonedDB "u-1" ["abc123"]).get ⟨0, h2⟩).is_deleted =
          true) ∧
    (∃ nr : Row, nr.is_deleted = false ∧
        URLRepository.Store [] "abc123" "https://a.com" "u-1" 5 = Except.ok ([] ++ [nr])) := by
  refine ⟨batchDelete_idempotent_monotone.1 tombstonedDB "u-1" ["abc123"],
    batchDelete_idempotent_monotone.2.1 tombstonedDB "u-1" ["abc123"] 0 (by decide) (by decide),
    ?_⟩
  obtain ⟨nr, hnr, hdb⟩ :=
    batchDelete_idempotent_monotone.2.2 [] "abc123" "https://a.com" "u-1" 5
      ([{ short_url := "abc123", long_url := "https://a.com", user_id := "u-1",
          created_at := 5, is_deleted := false }]) rfl
  exact ⟨nr, hnr, by rw [← hdb]; rfl⟩

end Shortener

namespace Shortener

/-- A concrete deletion task accepted by the queue. -/
def exTask : DeleteTask := { UserID := "u-1", ShortURL := "abc123" }

/-- Counterexample to claim C5.  A worker whose trace consists of
receiving one task from the queue and then observing the queue closed
(the receive yielding ok = false) terminates with processBatch never
invoked: the task was accepted by the queue and received by the
worker, yet at the moment the worker exits - and hence at the moment
Close() returns - it sits unflushed in the discarded local buffer.
The code path is the bare return on ok = false in deleteWorker
(part_023 lines 159-161), which performs no final flush. -/
theorem deleteWorker_close_discards_buffer :
    URLRepository.eventsTasks [URLRepository.WorkerEvent.task exTask] = [exTask] ∧
    (URLRepository.deleteWorker [] [URLRepository.WorkerEvent.task exTask]).flushed = [] ∧
    (URLRepository.deleteWorker [] [URLRepository.WorkerEvent.task exTask]).leftover = [exTask] := by
  refine ⟨rfl, ?_, ?_⟩ <;> rfl

/-- Claim C5, amended.  The flush accounting of one worker: every task
the worker received is either inside one of the batches handed to
processBatch (a full-batch flush or a timer flush) or still in the
local buffer when the worker exits; when the queue closes the worker
returns at once, flushing nothing and discarding that buffer.  The
shutdown ordering of Close is preserved: the queue is closed, then
the barrier waits for all workers, and only then is the database
handle closed. -/
theorem deleteWorker_flush_accounting :
    (∀ (buf : List DeleteTask) (events : List URLRepository.WorkerEvent),
        (URLRepository.deleteWorker buf events).flushed.flatten ++
            (URLRepository.deleteWorker buf events).leftover =
          buf ++ URLRepository.eventsTasks events) ∧
    (∀ buf : List DeleteTask,
        URLRepository.deleteWorker buf [] = { flushed := [], leftover := buf }) ∧
    URLRepository.Close =
      [URLRepository.LifecycleStep.closeQueue, URLRepository.LifecycleStep.waitWorkers,
       URLRepository.LifecycleStep.closeDB] := by
  refine ⟨?_, fun buf => rfl, rfl⟩
  intro buf events
  induction events generalizing buf with
  | nil => simp [URLRepository.deleteWorker, URLRepository.eventsTasks]
  | cons e rest ih =>
    cases e with
    | task t =>
      by_cases hb : URLRepository.batchSize ≤ (buf ++ [t]).length
      · have ih0 := ih []
        simp only [URLRepository.deleteWorker, hb, if_true, List.flatten_cons,
          URLRepository.eventsTasks, List.nil_append] at ih0 ⊢
        rw [List.append_assoc, ih0]
        simp
      · have ih2 := ih (buf ++ [t])
        simp only [URLRepository.deleteWorker, hb, if_false, URLRepository.eventsTasks] at ih2 ⊢
        rw [ih2]
        simp
    | timer =>
      by_cases hb : buf.isEmpty = true
      · have hbuf : buf = [] := List.isEmpty_iff.mp hb
        have ih0 := ih []
        simp only [URLRepository.deleteWorker, hb, if_true, URLRepository.eventsTasks,
          List.nil_append] at ih0 ⊢
        subst hbuf
        simpa using ih0
      · have ih0 := ih []
        simp only [URLRepository.deleteWorker, hb, Bool.false_eq_true, if_false,
          List.flatten_cons, URLRepository.eventsTasks, List.nil_append] at ih0 ⊢
        rw [List.append_assoc, ih0]

end Shortener

namespace Shortener

/-- Claim C2: on the relational backend, a Store whose insert hits a
unique violation because the original URL is already mapped performs
the follow-up lookup by original URL and fails with the conflict
error carrying the identifier under which that URL is stored; no
successor store state is produced, so nothing is inserted and the
existing rows are untouched. -/
theorem store_url_conflict (db : DB) (su lu uid : String) (t : Nat) (r0 : Row)
    (hfind : db.find? (fun r => r.long_url == lu) = some r0) :
    URLRepository.Store db su lu uid t = Except.error (RepoError.conflict r0.short_url) ∧
    r0 ∈ db ∧ r0.long_url = lu ∧
    (∀ db2 : DB, URLRepository.Store db su lu uid t ≠ Except.ok db2) := by
  have hmem : r0 ∈ db := List.mem_of_find?_eq_some hfind
  have hbeq := List.find?_some hfind
  have hlu : r0.long_url = lu := by simpa using hbeq
  have hbeq2 : (r0.long_url == lu) = true := by simpa using hbeq
  have hany : (db.any fun r => r.short_url == su || r.long_url == lu) = true := by
    rw [List.any_eq_true]
    exact ⟨r0, hmem, by rw [hbeq2, Bool.or_true]⟩
  have hstep : URLRepository.Store db su lu uid t =
      Except.error (RepoError.conflict r0.short_url) := by
    unfold URLRepository.Store URLRepository.getByLongURL
    rw [if_pos hany, hfind]
  exact ⟨hstep, hmem, hlu, fun db2 hok => by rw [hstep] at hok; cases hok⟩

/-- A concrete store holding a single live mapping. -/
def liveDB : DB :=
  [{ short_url := "abc123", long_url := "https://dup.com", user_id := "u-1",
     created_at := 3, is_deleted := false }]

/-- Witness for C2: storing the already-mapped URL https://dup.com
under a fresh identifier fails with the conflict carrying abc123. -/
theorem store_url_conflict_witness :
    URLRepository.Store liveDB "zzz999" "https://dup.com" "u-2" 4 =
      Except.error (RepoError.conflict "abc123") :=
  (store_url_conflict liveDB "zzz999" "https://dup.com" "u-2" 4
    { short_url := "abc123", long_url := "https://dup.com", user_id := "u-1",
      created_at := 3, is_deleted := false } rfl).1

/-- Claim C6: a Store whose insert hits a unique violation on the
identifier column alone (the identifier is already a row's short_url
while no row maps the original URL) fails with the generic store
error, because the follow-up lookup by original URL finds nothing;
in particular the outcome is not the conflict error. -/
theorem store_identifier_collision (db : DB) (su lu uid : String) (t : Nat)
    (hshort : ∃ r ∈ db, r.short_url = su)
    (hlong : ∀ r ∈ db, r.long_url ≠ lu) :
    URLRepository.Store db su lu uid t = Except.error RepoError.storeError ∧
    (∀ x, URLRepository.Store db su lu uid t ≠ Except.error (RepoError.conflict x)) := by
  obtain ⟨r1, hr1, hr1su⟩ := hshort
  have hany : (db.any fun r => r.short_url == su || r.long_url == lu) = true := by
    rw [List.any_eq_true]
    exact ⟨r1, hr1, by rw [hr1su, beq_self_eq_true, Bool.true_or]⟩
  have hnone : db.find? (fun r => r.long_url == lu) = none := by
    rw [List.find?_eq_none]
    intro r hr
    simpa using hlong r hr
  have hstep : URLRepository.Store db su lu uid t = Except.error RepoError.storeError := by
    unfold URLRepository.Store URLRepository.getByLongURL
    rw [if_pos hany, hnone]
  refine ⟨hstep, fun x hconf => ?_⟩
  rw [hstep] at hconf
  cases hconf

/-- Witness for C6: inserting a fresh URL under the already-taken
identifier abc123 yields the generic store error. -/
theorem store_identifier_collision_witness :
    URLRepository.Store liveDB "abc123" "https://fresh.com" "u-2" 4 =
      Except.error RepoError.storeError :=
  (store_identifier_collision liveDB "abc123" "https://fresh.com" "u-2" 4
    ⟨{ short_url := "abc123", long_url := "https://dup.com", user_id := "u-1",
       created_at := 3, is_deleted := false }, by simp [liveDB], rfl⟩
    (by intro r hr; simp [liveDB] at hr; subst hr; decide)).1

end Shortener

namespace Shortener

/-- Claim C3: the three resolve outcomes.  With the probe the query
performs (find? on short_url): no matching row yields notFound; a
matching live row yields its long URL; a matching tombstoned row
yields the distinct urlDeleted (Gone) outcome.  Conversely a URL is
only ever returned from a live matching row, the Gone outcome only
arises from a tombstoned matching row, Gone and NotFound are distinct
values, and the service GetLongURL is the identity pass-through of
the repository Get. -/
theorem resolve_outcomes :
    (∀ (db : DB) (id : String),
        db.find? (fun r => r.short_url == id) = none →
        URLRepository.Get db id = Except.error RepoError.notFound) ∧
    (∀ (db : DB) (id : String) (r : Row),
        db.find? (fun r2 => r2.short_url == id) = some r →
        (r.is_deleted = false → URLRepository.Get db id = Except.ok r.long_url) ∧
        (r.is_deleted = true → URLRepository.Get db id = Except.error RepoError.urlDeleted)) ∧
    (∀ (db : DB) (id url : String),
        URLRepository.Get db id = Except.ok url →
        ∃ r ∈ db, r.short_url = id ∧ r.is_deleted = false ∧ r.long_url = url) ∧
    (∀ (db : DB) (id : String),
        URLRepository.Get db id = Except.error RepoError.urlDeleted →
        ∃ r ∈ db, r.short_url = id ∧ r.is_deleted = true) ∧
    (RepoError.urlDeleted ≠ RepoError.notFound) ∧
    (∀ (t : Nat) (db : DB) (id : String),
        URLService.GetLongURL (dbOps t) db id = URLRepository.Get db id) := by
  refine ⟨?_, ?_, ?_, ?_, by decide, fun t db id => rfl⟩
  · intro db id h
    unfold URLRepository.Get
    rw [h]
  · intro db id r h
    unfold URLRepository.Get
    rw [h]
    exact ⟨fun hd => by simp [hd], fun hd => by simp [hd]⟩
  · intro db id url h
    unfold URLRepository.Get at h
    split at h
    · cases h
    · rename_i r hf
      by_cases hd : r.is_deleted = true
      · rw [if_pos hd] at h
        cases h
      · rw [if_neg hd] at h
        refine ⟨r, List.mem_of_find?_eq_some hf, ?_, ?_, ?_⟩
        · have := List.find?_some hf
          simpa using this
        · simpa using hd
        · exact (Except.ok.injEq _ _).mp h
  · intro db id h
    unfold URLRepository.Get at h
    split at h
    · cases h
    · rename_i r hf
      by_cases hd : r.is_deleted = true
      · refine ⟨r, List.mem_of_find?_eq_some hf, ?_, hd⟩
        have := List.find?_some hf
        simpa using this
      · rw [if_neg hd] at h
        cases h

/-- A concrete store with one live and one tombstoned row. -/
def mixedDB : DB :=
  [{ short_url := "abc123", long_url := "https://a.com", user_id := "u-1",
     created_at := 1, is_deleted := false },
   { short_url := "ddd444", long_url := "https://d.com", user_id := "u-1",
     created_at := 2, is_deleted := true }]

/-- Witness for C3: in mixedDB a live identifier resolves to its URL,
the tombstoned one to Gone, and an absent one to NotFound. -/
theorem resolve_outcomes_witness :
    URLRepository.Get mixedDB "abc123" = Except.ok "https://a.com" ∧
    URLRepository.Get mixedDB "ddd444" = Except.error RepoError.urlDeleted ∧
    URLRepository.Get mixedDB "nope99" = Except.error RepoError.notFound :=
  ⟨(resolve_outcomes.2.1 mixedDB "abc123"
      { short_url := "abc123", long_url := "https://a.com", user_id := "u-1",
        created_at := 1, is_deleted := false } rfl).1 rfl,
   (resolve_outcomes.2.1 mixedDB "ddd444"
      { short_url := "ddd444", long_url := "https://d.com", user_id := "u-1",
        created_at := 2, is_deleted := true } rfl).2 rfl,
   resolve_outcomes.1 mixedDB "nope99" rfl⟩

end Shortener

namespace Shortener

/-- The bulk tombstone update never changes a row's short_url. -/
theorem URLRepository.tombstoneRow_short_url (u : String) (ids : List String) (r : Row) :
    (URLRepository.tombstoneRow u ids r).short_url = r.short_url := by
  unfold URLRepository.tombstoneRow
  split <;> rfl

/-- A row of a different owner is untouched by the bulk tombstone
update: the WHERE user_id = $1 clause filters it out. -/
theorem URLRepository.tombstoneRow_other_user (u : String) (ids : List String) (r : Row)
    (h : r.user_id ≠ u) : URLRepository.tombstoneRow u ids r = r := by
  unfold URLRepository.tombstoneRow
  rw [if_neg]
  simp [h]

/-- Claim C4: ownership fence on deletion.  A bulk deletion issued by
owner u2 leaves every row of any other owner exactly as it was (same
row, hence same tombstone flag), and when every row carrying an
identifier belongs to an owner u1 distinct from u2, resolving that
identifier is unchanged by the batch; the bulk update itself returns
normally (it is a total function of the store), so no error
surfaces. -/
theorem batchDelete_ownership_fence :
    (∀ (db : DB) (u2 : String) (ids : List String) (i : Nat) (h : i < db.length),
        (db.get ⟨i, h⟩).user_id ≠ u2 →
        ∃ h2 : i < (URLRepository.batchDeleteURLs db u2 ids).length,
          (URLRepository.batchDeleteURLs db u2 ids).get ⟨i, h2⟩ = db.get ⟨i, h⟩) ∧
    (∀ (db : DB) (u1 u2 : String) (ids : List String) (id : String),
        u1 ≠ u2 →
        (∀ r ∈ db, r.short_url = id → r.user_id = u1) →
        URLRepository.Get (URLRepository.batchDeleteURLs db u2 ids) id =
          URLRepository.Get db id) := by
  constructor
  · intro db u2 ids i h hne
    simp only [List.get_eq_getElem] at hne
    unfold URLRepository.batchDeleteURLs
    cases hids : ids.isEmpty
    · refine ⟨by simpa using h, ?_⟩
      simp only [Bool.false_eq_true, if_false, List.get_eq_getElem, List.getElem_map]
      exact URLRepository.tombstoneRow_other_user u2 ids _ hne
    · exact ⟨by simpa using h, by simp⟩
  · intro db u1 u2 ids id hne hown
    unfold URLRepository.batchDeleteURLs
    cases hids : ids.isEmpty
    · simp only [Bool.false_eq_true, if_false]
      have hcomp : ((fun r : Row => r.short_url == id) ∘ URLRepository.tombstoneRow u2 ids) =
          (fun r : Row => r.short_url == id) := by
        funext r
        simp [Function.comp, URLRepository.tombstoneRow_short_url]
      have hfm : (db.map (URLRepository.tombstoneRow u2 ids)).find?
            (fun r => r.short_url == id) =
          Option.map (URLRepository.tombstoneRow u2 ids)
            (db.find? ((fun r : Row => r.short_url == id) ∘
              URLRepository.tombstoneRow u2 ids)) :=
        List.find?_map _ _
      unfold URLRepository.Get
      rw [hfm, hcomp]
      cases hf : db.find? (fun r => r.short_url == id)
      · rfl
      · rename_i r
        have hmem : r ∈ db := List.mem_of_find?_eq_some hf
        have hsid : r.short_url = id := by
          have := List.find?_some hf
          simpa using this
        have hu1 : r.user_id = u1 := hown r hmem hsid
        have hfix : URLRepository.tombstoneRow u2 ids r = r :=
          URLRepository.tombstoneRow_other_user u2 ids r (by rw [hu1]; exact hne)
        simp [hfix]
    · rfl

/-- Witness for C4: in the concrete one-row store owned by u-1, a
deletion batch issued by u-B naming the row's identifier changes
neither the row nor the resolve outcome. -/
theorem batchDelete_ownership_fence_witness :
    (∃ h2 : 0 < (URLRepository.batchDeleteURLs liveDB "u-B" ["abc123"]).length,
        (URLRepository.batchDeleteURLs liveDB "u-B" ["abc123"]).get ⟨0, h2⟩ =
          liveDB.get ⟨0, by decide⟩) ∧
    URLRepository.Get (URLRepository.batchDeleteURLs liveDB "u-B" ["abc123"]) "abc123" =
      URLRepository.Get liveDB "abc123" :=
  ⟨batchDelete_ownership_fence.1 liveDB "u-B" ["abc123"] 0 (by decide) (by decide),
   batchDelete_ownership_fence.2 liveDB "u-1" "u-B" ["abc123"] "abc123" (by decide)
     (fun r hr hshort => by
       simp only [liveDB, List.mem_singleton] at hr
       rw [hr])⟩

end Shortener

namespace Shortener

/-- Claim C9: ListByOwner returns exactly the owner's records - live
and tombstoned alike, since the query has no is_deleted filter -
as some ordering of the owner's rows that is sorted by descending
creation time, and the service formatting step rewrites each short
entry to the base prefix, a slash separator, and the record's
identifier. -/
theorem listByOwner_exact_sorted (db : DB) (u base : String) :
    (∃ rows : List Row,
        rows.Perm (db.filter (fun r => r.user_id == u)) ∧
        List.Sorted createdDesc rows ∧
        URLRepository.GetUserURLs db u =
          rows.map (fun r => { ShortURL := r.short_url, OriginalURL := r.long_url })) ∧
    (URLService.GetFormattedUserURLs db u base =
      (URLRepository.GetUserURLs db u).map
        (fun p => { p with ShortURL := base ++ "/" ++ p.ShortURL })) ∧
    (∀ p ∈ URLService.GetFormattedUserURLs db u base,
        ∃ r ∈ db, r.user_id = u ∧ p.ShortURL = base ++ "/" ++ r.short_url ∧
          p.OriginalURL = r.long_url) ∧
    (∀ r ∈ db, r.user_id = u →
        ({ ShortURL := base ++ "/" ++ r.short_url, OriginalURL := r.long_url } : URLPair) ∈
          URLService.GetFormattedUserURLs db u base) := by
  refine ⟨⟨List.insertionSort createdDesc (db.filter (fun r => r.user_id == u)),
      List.perm_insertionSort _ _, List.sorted_insertionSort _ _, rfl⟩, rfl, ?_, ?_⟩
  · intro p hp
    unfold URLService.GetFormattedUserURLs URLService.GetUserURLs
      URLRepository.GetUserURLs at hp
    rcases List.mem_map.mp hp with ⟨q, hq, rfl⟩
    rcases List.mem_map.mp hq with ⟨r, hr, rfl⟩
    have hrf : r ∈ db.filter (fun r => r.user_id == u) :=
      (List.perm_insertionSort createdDesc _).mem_iff.mp hr
    have hrdb := List.mem_filter.mp hrf
    exact ⟨r, hrdb.1, by simpa using hrdb.2, rfl, rfl⟩
  · intro r hr hu
    unfold URLService.GetFormattedUserURLs URLService.GetUserURLs URLRepository.GetUserURLs
    refine List.mem_map.mpr
      ⟨{ ShortURL := r.short_url, OriginalURL := r.long_url }, ?_, rfl⟩
    refine List.mem_map.mpr ⟨r, ?_, rfl⟩
    exact (List.perm_insertionSort createdDesc _).mem_iff.mpr
      (List.mem_filter.mpr ⟨hr, by simp [hu]⟩)

/-- A concrete store with two records of one owner, the more recent
one tombstoned. -/
def twoRowDB : DB :=
  [{ short_url := "old111", long_url := "https://1.com", user_id := "u",
     created_at := 1, is_deleted := false },
   { short_url := "new222", long_url := "https://2.com", user_id := "u",
     created_at := 2, is_deleted := true }]

/-- Witness for C9: in the two-row store the tombstoned record is
still listed and formatted with the base prefix and slash, and the
full listing is most-recent first. -/
theorem listByOwner_exact_sorted_witness :
    ({ ShortURL := "http://s" ++ "/" ++ "new222", OriginalURL := "https://2.com" } : URLPair) ∈
      URLService.GetFormattedUserURLs twoRowDB "u" "http://s" ∧
    URLService.GetFormattedUserURLs twoRowDB "u" "http://s" =
      [{ ShortURL := "http://s/new222", OriginalURL := "https://2.com" },
       { ShortURL := "http://s/old111", OriginalURL := "https://1.com" }] :=
  ⟨(listByOwner_exact_sorted twoRowDB "u" "http://s").2.2.2
      { short_url := "new222", long_url := "https://2.com", user_id := "u",
        created_at := 2, is_deleted := true }
      (by simp [twoRowDB]) rfl,
   by decide⟩

end Shortener

namespace Shortener

/-- The generator always returns a string of the requested length. -/
theorem URLService.shortURL_length (rnd : Nat → Fin 62) (n : Nat) :
    (URLService.shortURL rnd n).length = n := by
  have hmk : ∀ l : List Char, (String.mk l).length = l.length := fun l => rfl
  unfold URLService.shortURL
  rw [hmk]
  simp

/-- A run of the Shorten loop over candidates that are all taken
reaches the exhaustion outcome without ever calling Store. -/
theorem URLService.shortenList_all_taken (ops : RepoOps σ) (s : σ) (v u : String)
    (l : List String) (h : ∀ c ∈ l, URLService.isUniq ops s c = false) :
    URLService.shortenList ops s v u l = (URLService.ShortenResult.exhausted, []) := by
  induction l with
  | nil => rfl
  | cons c rest ih =>
    have hc := h c (List.mem_cons_self c rest)
    simp only [URLService.shortenList, hc, Bool.false_eq_true, if_false]
    exact ih (fun c2 hc2 => h c2 (List.mem_cons_of_mem _ hc2))

/-- Claim C1: the allocation protocol of Shorten.  One call works
through 1000 generated candidates, each of exactly 6 symbols; a
candidate on which the probe returns a live URL is skipped (the loop
retries with the next candidate); a candidate on which the probe
errors - NotFound and Gone are errors of Get - is free: Store is
called on it, a Store success ends the call returning exactly that
candidate, and a Store failure ends the call with that error; and
when all 1000 candidates are taken the call ends in the exhaustion
outcome with an empty list of Store invocations, so nothing was
stored. -/
theorem shorten_allocation_protocol (σ : Type) (ops : RepoOps σ) (s : σ) (v u : String)
    (rnd : Nat → Nat → Fin 62) :
    ((URLService.generateCandidates rnd).length = 1000 ∧
      ∀ c ∈ URLService.generateCandidates rnd, c.length = 6) ∧
    ((∀ c ∈ URLService.generateCandidates rnd, URLService.isUniq ops s c = false) →
      URLService.Shorten ops s v u rnd = (URLService.ShortenResult.exhausted, [])) ∧
    (∀ (su : String) (rest : List String) (url : String),
      ops.get s su = Except.ok url →
      URLService.shortenList ops s v u (su :: rest) = URLService.shortenList ops s v u rest) ∧
    (∀ (su : String) (rest : List String) (e : RepoError),
      ops.get s su = Except.error e →
      (∀ s2, ops.store s su v u = Except.ok s2 →
        URLService.shortenList ops s v u (su :: rest) =
          (URLService.ShortenResult.success su s2, [su])) ∧
      (∀ e2, ops.store s su v u = Except.error e2 →
        URLService.shortenList ops s v u (su :: rest) =
          (URLService.ShortenResult.failure e2, [su]))) := by
  refine ⟨⟨by simp [URLService.generateCandidates], ?_⟩, ?_, ?_, ?_⟩
  · intro c hc
    have hc2 : ∃ k, k < 1000 ∧ URLService.shortURL (rnd k) 6 = c := by
      simpa [URLService.generateCandidates] using hc
    rcases hc2 with ⟨k, _, rfl⟩
    exact URLService.shortURL_length (rnd k) 6
  · intro h
    exact URLService.shortenList_all_taken ops s v u _ h
  · intro su rest url hget
    have hu : URLService.isUniq ops s su = false := by
      unfold URLService.isUniq
      rw [hget]
    simp only [URLService.shortenList, hu, Bool.false_eq_true, if_false]
  · intro su rest e hget
    have hu : URLService.isUniq ops s su = true := by
      unfold URLService.isUniq
      rw [hget]
    constructor
    · intro s2 hstore
      simp only [URLService.shortenList, hu, if_true, hstore]
    · intro e2 hstore
      simp only [URLService.shortenList, hu, if_true, hstore]

/-- A concrete store in which the constant candidate aaaaaa is taken. -/
def takenDB : DB :=
  [{ short_url := "aaaaaa", long_url := "https://x.com", user_id := "u-1",
     created_at := 0, is_deleted := false }]

/-- Witness for C1, the exhaustion scenario of the spec: with a
constant generator always drawing symbol index 0 (candidate aaaaaa)
and a store already holding aaaaaa live, Shorten exhausts its 1000
attempts without storing anything. -/
theorem shorten_allocation_protocol_witness :
    URLService.Shorten (dbOps 1) takenDB "https://y.com" "u-2" (fun _ _ => (0 : Fin 62)) =
      (URLService.ShortenResult.exhausted, []) := by
  apply (shorten_allocation_protocol DB (dbOps 1) takenDB "https://y.com" "u-2"
    (fun _ _ => (0 : Fin 62))).2.1
  intro c hc
  obtain ⟨k, hk, hck⟩ := List.mem_map.mp hc
  rw [← hck]
  rfl

/-- Claim C10 (implicit): the uniqueness pre-check classifies a
candidate as free on any probe error whatsoever - isUniq is true
exactly when Get returned an error, with no scrutiny of which error -
so on a backend failure (the generic store error) the candidate
counts as unused and the loop proceeds straight to Store with it. -/
theorem isUniq_any_error_free (σ : Type) (ops : RepoOps σ) (s : σ) (su : String) :
    (URLService.isUniq ops s su = true ↔ ∃ e, ops.get s su = Except.error e) ∧
    (∀ e, ops.get s su = Except.error e → URLService.isUniq ops s su = true) ∧
    (∀ (v u : String) (rest : List String) (s2 : σ),
      ops.get s su = Except.error RepoError.storeError →
      ops.store s su v u = Except.ok s2 →
      URLService.shortenList ops s v u (su :: rest) =
        (URLService.ShortenResult.success su s2, [su])) := by
  have hchar : ∀ e, ops.get s su = Except.error e → URLService.isUniq ops s su = true := by
    intro e hget
    unfold URLService.isUniq
    rw [hget]
  refine ⟨⟨?_, fun ⟨e, he⟩ => hchar e he⟩, hchar, ?_⟩
  · intro htrue
    unfold URLService.isUniq at htrue
    cases hget : ops.get s su <;> rw [hget] at htrue
    · rename_i e
      exact ⟨e, rfl⟩
    · cases htrue
  · intro v u rest s2 hget hstore
    have hu := hchar RepoError.storeError hget
    simp only [URLService.shortenList, hu, if_true, hstore]

/-- A mock repository whose probe always fails with the generic
backend error and whose store always succeeds, counting insertions. -/
def failingOps : RepoOps Nat where
  get := fun _ _ => Except.error RepoError.storeError
  store := fun n _ _ _ => Except.ok (n + 1)

/-- Witness for C10: under the always-failing probe the candidate is
judged free and the loop stores it immediately. -/
theorem isUniq_any_error_free_witness :
    URLService.isUniq failingOps 0 "abc123" = true ∧
    URLService.shortenList failingOps 0 "https://v.com" "u-1" ["abc123"] =
      (URLService.ShortenResult.success "abc123" 1, ["abc123"]) :=
  ⟨(isUniq_any_error_free Nat failingOps 0 "abc123").2.1 RepoError.storeError rfl,
   (isUniq_any_error_free Nat failingOps 0 "abc123").2.2 "https://v.com" "u-1" [] 1 rfl rfl⟩

end Shortener
